import Mathlib

/-!
# Verification of the next-bungie-auth session lifecycle core

Shallow embedding of the repository's logical core:

* token codec (`encodeToken` / `decodeToken`, `src/unnamed/part_004`), including a
  faithful model of the JavaScript `btoa` / `atob` forgiving-base64 primitives;
* server session derivation engine (`refreshSession`, `src/unnamed/part_005`;
  `getSession`, `src/lib/session.ts`) over the cookie layer
  (`getAllCookies` / `setAllCookies` / `clearAllCookies`, `src/lib/types.ts`);
* client session state machine (`deriveErrorState`, `deriveLoadingState`,
  `deriveStateFromServer`, `calculateMsToNextRefresh`, `fetchAndUpdateSession`;
  second variant in `src/unnamed/part_003`).

Modelling conventions:

* A JavaScript string is a list of UTF-16 code units (`JsString := List Nat`,
  each element `< 65536`); `String.fromCharCode` applies ToUint16, i.e.
  reduction mod 65536 (`toUint16`).
* JavaScript numbers only ever hold integer millisecond / second values in this
  code (`Date.now()`, `getTime()`, `expires_in * 1000`, ...), so times are
  modelled as `Int`.  The single fractional expression, the fast-path guard
  `accessExpires.getTime() - Date.now() / 1000 > gracePeriod`, is stated
  multiplied through by 1000 (`1000*a - now > 1000*g`), which is exactly
  equivalent over the reals for integer inputs.
* Thrown exceptions are modelled with `Except Unit` (`.error ()` = the
  JavaScript function throws); `Option` models `null`/`undefined` results.
* The four session cookies live under the four fixed distinct names
  `<base>.membershipid` / `.access` / `.refresh` / `.expires`, so the cookie
  jar is modelled as a record with one optional field per name
  (`SessionCookies`).  `cookieJar.delete` of all four = all fields `none`.
* Environment behaviour (`Date.now()`, `new Date(string).getTime()`,
  `Date.toISOString`) is a parameter (`JsEnv`); `toISOString` is injective on
  valid dates, so session payloads carry the millisecond value itself.
* The provider exchange (`getTokens` / `config.tokenHttp`) is one awaited
  network call; its three observable outcomes (parsed token response, thrown
  `BungieAuthorizationError`, any other thrown error) are a parameter
  (`ProviderOutcome`), and the engine reports how many times it would have
  invoked the provider.
-/

/-- A JavaScript string: its list of UTF-16 code units (each `< 65536`). -/
abbrev JsString := List Nat

/-- `String.fromCharCode` coerces its argument with ToUint16: reduce the
(possibly negative, possibly large) number mod 2^16. -/
def toUint16 (x : Int) : Nat := (x % 65536).toNat

/-- Code units of a Lean string literal, for writing concrete JS strings. -/
def strCodes (s : String) : JsString := s.data.map Char.toNat

/-- JavaScript string truthiness for an optional string: `undefined`, `null`
and `""` are falsy, every other string is truthy. -/
def truthy : Option JsString → Bool
  | none => false
  | some s => !s.isEmpty

/-! ## The base64 primitives `btoa` and `atob`

`btoa` throws (`none`) when a code unit exceeds 255, otherwise produces the
padded RFC 4648 alphabet encoding.  `atob` implements the WHATWG
forgiving-base64 decode: strip ASCII whitespace, strip one or two trailing
`=` when the length is a multiple of four, then reject strings whose length
is 1 mod 4 or that contain a character outside the alphabet. -/

/-- The base64 alphabet: 6-bit value to character code. -/
def b64chr (v : Nat) : Nat :=
  if v < 26 then 65 + v
  else if v < 52 then 71 + v
  else if v < 62 then v - 4
  else if v = 62 then 43
  else 47

/-- Is this character code in the base64 alphabet? -/
def isB64Char (c : Nat) : Bool :=
  (65 ≤ c && c ≤ 90) || (97 ≤ c && c ≤ 122) || (48 ≤ c && c ≤ 57) || c == 43 || c == 47

/-- Character code back to its 6-bit value (left inverse of `b64chr`). -/
def b64val (c : Nat) : Nat :=
  if 65 ≤ c && c ≤ 90 then c - 65
  else if 97 ≤ c && c ≤ 122 then c - 71
  else if 48 ≤ c && c ≤ 57 then c + 4
  else if c == 43 then 62
  else 63

/-- ASCII whitespace skipped by forgiving-base64 decode. -/
def isB64Ws (c : Nat) : Bool := c == 9 || c == 10 || c == 12 || c == 13 || c == 32

/-- Padded base64 encoding of a byte list (the body of `btoa`); 61 is `=`. -/
def encBytes : List Nat → List Nat
  | [] => []
  | [a] => [b64chr (a / 4), b64chr (a % 4 * 16), 61, 61]
  | [a, b] => [b64chr (a / 4), b64chr (a % 4 * 16 + b / 16), b64chr (b % 16 * 4), 61]
  | a :: b :: c :: r =>
      b64chr (a / 4) :: b64chr (a % 4 * 16 + b / 16) :: b64chr (b % 16 * 4 + c / 64)
        :: b64chr (c % 64) :: encBytes r

/-- Unpadded base64 encoding (what remains after `atob` strips the `=`). -/
def encNoPad : List Nat → List Nat
  | [] => []
  | [a] => [b64chr (a / 4), b64chr (a % 4 * 16)]
  | [a, b] => [b64chr (a / 4), b64chr (a % 4 * 16 + b / 16), b64chr (b % 16 * 4)]
  | a :: b :: c :: r =>
      b64chr (a / 4) :: b64chr (a % 4 * 16 + b / 16) :: b64chr (b % 16 * 4 + c / 64)
        :: b64chr (c % 64) :: encNoPad r

/-- Base64 character list back to bytes (length mod 4 must not be 1). -/
def decChars : List Nat → List Nat
  | v1 :: v2 :: v3 :: v4 :: r =>
      (b64val v1 * 4 + b64val v2 / 16) :: (b64val v2 % 16 * 16 + b64val v3 / 4)
        :: (b64val v3 % 4 * 64 + b64val v4) :: decChars r
  | [v1, v2, v3] => [b64val v1 * 4 + b64val v2 / 16, b64val v2 % 16 * 16 + b64val v3 / 4]
  | [v1, v2] => [b64val v1 * 4 + b64val v2 / 16]
  | _ => []

/-- Strip one or two trailing `=` characters (forgiving-base64 step 3). -/
def stripPad (l : List Nat) : List Nat :=
  match l.reverse with
  | 61 :: 61 :: r => r.reverse
  | 61 :: r => r.reverse
  | _ => l

/-- The JavaScript `atob`: forgiving-base64 decode; `none` models the thrown
`InvalidCharacterError`. -/
def atob (s : List Nat) : Option (List Nat) :=
  let t := s.filter (fun c => !isB64Ws c)
  let u := if t.length % 4 == 0 then stripPad t else t
  if u.length % 4 == 1 then none
  else if u.all isB64Char then some (decChars u) else none

/-- The JavaScript `btoa`: `none` models the `InvalidCharacterError` thrown
when some code unit is outside the latin1 range. -/
def btoa (s : List Nat) : Option (List Nat) :=
  if s.all (fun c => c ≤ 255) then some (encBytes s) else none

/-! ## The token codec (`src/unnamed/part_004`) -/

/-- Configuration fields consumed by the modelled core.  The remaining fields
of `NextBungieAuthConfig` (client id, cookie names and options, logging, the
HTTP function itself) do not influence the verified logic. -/
structure NextBungieAuthConfig where
  clientSecret : JsString
  sessionRefreshGracePeriod : Int
deriving DecidableEq

/-- `config.clientSecret.charCodeAt(i % config.clientSecret.length)`.
Faithful for a non-empty secret; every codec theorem assumes the secret is
non-empty (an empty secret sends JavaScript into NaN arithmetic). -/
def secretCode (secret : JsString) (i : Nat) : Nat :=
  secret.getD (i % secret.length) 0

/-- The keystream map of `encodeToken`: character `i` becomes
`String.fromCharCode(c.charCodeAt(0) + secret.charCodeAt(i % secret.length))`. -/
def obfChars (secret : JsString) : Nat → JsString → JsString
  | _, [] => []
  | i, c :: cs => toUint16 ((c : Int) + (secretCode secret i : Int)) :: obfChars secret (i + 1) cs

/-- The keystream map of `decodeToken`: the same keystream subtracted. -/
def deobfChars (secret : JsString) : Nat → JsString → JsString
  | _, [] => []
  | i, c :: cs => toUint16 ((c : Int) - (secretCode secret i : Int)) :: deobfChars secret (i + 1) cs

/-- `encodeToken` (`src/unnamed/part_004`): shift each character by the
secret-derived keystream, then `btoa`; `none` models the throw from `btoa`. -/
def encodeToken (data : JsString) (config : NextBungieAuthConfig) : Option JsString :=
  btoa (obfChars config.clientSecret 0 data)

/-- `decodeToken` (`src/unnamed/part_004`): `null` for an absent or empty
input, otherwise `atob` (whose `InvalidCharacterError` propagates —
`Except.error`) followed by subtracting the keystream. -/
def decodeToken (encodedStr : Option JsString) (config : NextBungieAuthConfig) :
    Except Unit (Option JsString) :=
  match encodedStr with
  | none => .ok none
  | some s =>
    if s.isEmpty then .ok none
    else
      match atob s with
      | none => .error ()
      | some bin => .ok (some (deobfChars config.clientSecret 0 bin))

/-! ## Cookie store and environment -/

/-- The four session cookies `<base>.membershipid` / `.access` / `.refresh` /
`.expires`; the names are fixed and distinct, so the name-indexed jar is a
record with one optional value per cookie.  Fields are `none` when the cookie
is absent (or deleted). -/
structure SessionCookies where
  membershipid : Option JsString
  access : Option JsString
  refresh : Option JsString
  expires : Option JsString
deriving DecidableEq

/-- Ambient JavaScript date behaviour: the current time, `new Date(s).getTime()`
for a string `s` (`none` models an Invalid Date, whose `getTime()` is NaN), and
`Date.toISOString` rendering of a millisecond timestamp. -/
structure JsEnv where
  nowMs : Int
  parseDateMs : JsString → Option Int
  isoStr : Int → JsString

/-- A parsed provider token response (`BungieTokenResponse`). -/
structure BungieTokenResponse where
  access_token : JsString
  refresh_token : JsString
  membership_id : JsString
  expires_in : Int
  refresh_expires_in : Int
deriving DecidableEq

/-- The observable outcome of the one awaited `getTokens` call:
a parsed response, a thrown `BungieAuthorizationError` (carrying `error` and
`error_description`), or any other thrown error (transport, non-JSON body,
missing keys). -/
inductive ProviderOutcome where
  | success (tokens : BungieTokenResponse)
  | authError (error : JsString) (error_description : JsString)
  | failure
deriving DecidableEq

/-- The `"SystemDisabled"` sentinel description compared against
`err.error_description` in `refreshSession`. -/
def systemDisabledCodes : JsString := strCodes "SystemDisabled"

/-- The record returned by `getAllCookies` (`src/lib/types.ts`):
`accessExpires` is `new Date(expiresCookie ?? 0)` as a millisecond timestamp
(`none` = Invalid Date), the access/refresh tokens are decoded with
`decodeToken`. -/
structure AllCookies where
  accessExpires : Option Int
  bungieMembershipId : Option JsString
  accessToken : Option JsString
  refreshToken : Option JsString
deriving DecidableEq

/-- `getAllCookies` (`src/lib/types.ts`).  The access cookie is decoded before
the refresh cookie (object literal field order), and a `decodeToken` throw
propagates out of the function. -/
def getAllCookies (env : JsEnv) (jar : SessionCookies) (config : NextBungieAuthConfig) :
    Except Unit AllCookies :=
  let accessExpires : Option Int :=
    match jar.expires with
    | none => some 0
    | some s => env.parseDateMs s
  match decodeToken jar.access config with
  | .error e => .error e
  | .ok accessToken =>
    match decodeToken jar.refresh config with
    | .error e => .error e
    | .ok refreshToken =>
      .ok { accessExpires := accessExpires
            bungieMembershipId := jar.membershipid
            accessToken := accessToken
            refreshToken := refreshToken }

/-- `setAllCookies` (`src/lib/types.ts`): set the membership id, then the
encoded refresh token, then the encoded access token, then the ISO-rendered
expiry.  `encodeToken` can throw mid-way, leaving the earlier writes in place:
the result is the jar after the writes that happened together with a flag
telling whether the function threw.  (The per-cookie `expires` attributes are
browser retention metadata and are outside the model.) -/
def setAllCookies (env : JsEnv) (tokens : BungieTokenResponse) (accessExpiresMs : Int)
    (jar : SessionCookies) (config : NextBungieAuthConfig) : SessionCookies × Bool :=
  let jar1 := { jar with membershipid := some tokens.membership_id }
  match encodeToken tokens.refresh_token config with
  | none => (jar1, true)
  | some encRefresh =>
    let jar2 := { jar1 with refresh := some encRefresh }
    match encodeToken tokens.access_token config with
    | none => (jar2, true)
    | some encAccess =>
      let jar3 := { jar2 with access := some encAccess }
      ({ jar3 with expires := some (env.isoStr accessExpiresMs) }, false)

/-- `clearAllCookies` (`src/lib/types.ts`): delete all four session cookies. -/
def clearAllCookies (_jar : SessionCookies) : SessionCookies :=
  { membershipid := none, access := none, refresh := none, expires := none }

/-! ## Session responses -/

/-- Authorized session payload: membership id, access token, and the access
expiry (`accessTokenExpiresAt` is serialized with `toISOString`, which is
injective on valid dates, so the payload carries the millisecond value). -/
structure AuthorizedData where
  bungieMembershipId : JsString
  accessToken : JsString
  accessTokenExpiresAtMs : Int
deriving DecidableEq

/-- `NextBungieAuthSessionResponse` as a sum: the `status` discriminant
determines the `data` shape (`null` for expired/unauthorized/error, membership
id only for stale/disabled, full payload for authorized). -/
inductive SessionResponse where
  | expired
  | unauthorized
  | error
  | stale (bungieMembershipId : JsString)
  | disabled (bungieMembershipId : JsString)
  | authorized (data : AuthorizedData)
deriving DecidableEq

/-- The fast-path freshness guard of `refreshSession` / `getSession`:
`accessExpires.getTime() - Date.now() / 1000 > config.sessionRefreshGracePeriod`
(false when `getTime()` is NaN), stated multiplied through by 1000. -/
def sessionStillValid (accessExpires : Option Int) (nowMs gracePeriod : Int) : Bool :=
  match accessExpires with
  | none => false
  | some t => decide (1000 * t - nowMs > 1000 * gracePeriod)

/-! ## The session derivation engine -/

/-- The `try`/`catch` body of `refreshSession` (`src/unnamed/part_005`, lines
50-117): perform the provider exchange and handle its outcome.  Returns the
session response, the cookie jar after the call, and the number of provider
invocations (always 1 here).  `now.setMilliseconds(0)` zeroes the millisecond
component before computing the new expiries. -/
def attemptRefresh (env : JsEnv) (provider : ProviderOutcome) (jar : SessionCookies)
    (config : NextBungieAuthConfig) (bungieMembershipId : JsString) :
    SessionResponse × SessionCookies × Nat :=
  match provider with
  | .success tokens =>
    let nowFloor := env.nowMs - env.nowMs % 1000
    let accessExpires := nowFloor + tokens.expires_in * 1000
    match setAllCookies env tokens accessExpires jar config with
    | (jar2, true) => (.error, jar2, 1)
    | (jar2, false) =>
      (.authorized { bungieMembershipId := tokens.membership_id
                     accessToken := tokens.access_token
                     accessTokenExpiresAtMs := accessExpires }, jar2, 1)
  | .authError _e d =>
    if d = systemDisabledCodes then (.disabled bungieMembershipId, jar, 1)
    else (.expired, clearAllCookies jar, 1)
  | .failure => (.error, jar, 1)

/-- `refreshSession` (`src/unnamed/part_005`): read the cookies (a decode
throw propagates), return `unauthorized` when the membership id or refresh
token is falsy, take the no-network fast path when not forced and the access
token is still comfortably valid, otherwise attempt the refresh exchange.
The `Nat` component counts provider invocations. -/
def refreshSession (env : JsEnv) (force : Bool) (provider : ProviderOutcome)
    (jar : SessionCookies) (config : NextBungieAuthConfig) :
    Except Unit (SessionResponse × SessionCookies × Nat) :=
  match getAllCookies env jar config with
  | .error e => .error e
  | .ok all =>
    if !truthy all.bungieMembershipId || !truthy all.refreshToken then
      .ok (.unauthorized, jar, 0)
    else if !force && truthy all.accessToken
        && sessionStillValid all.accessExpires env.nowMs config.sessionRefreshGracePeriod then
      .ok (.authorized { bungieMembershipId := all.bungieMembershipId.getD []
                         accessToken := all.accessToken.getD []
                         accessTokenExpiresAtMs := all.accessExpires.getD 0 }, jar, 0)
    else
      .ok (attemptRefresh env provider jar config (all.bungieMembershipId.getD []))

/-- `getSession` (`src/lib/session.ts`): same cookie read and guards, no
network call; the slow branch reports `stale` with the membership id. -/
def getSession (env : JsEnv) (jar : SessionCookies) (config : NextBungieAuthConfig) :
    Except Unit SessionResponse :=
  match getAllCookies env jar config with
  | .error e => .error e
  | .ok all =>
    if !truthy all.bungieMembershipId || !truthy all.refreshToken then
      .ok .unauthorized
    else if truthy all.accessToken
        && sessionStillValid all.accessExpires env.nowMs config.sessionRefreshGracePeriod then
      .ok (.authorized { bungieMembershipId := all.bungieMembershipId.getD []
                         accessToken := all.accessToken.getD []
                         accessTokenExpiresAtMs := all.accessExpires.getD 0 })
    else
      .ok (.stale (all.bungieMembershipId.getD []))

/-! ## The client session state machine (`src/unnamed/part_003`, second variant) -/

/-- Client-side `status` discriminant of `BungieSessionState`. -/
inductive ClientStatus where
  | pending
  | authorized
  | unauthorized
  | unavailable
  | stale
deriving DecidableEq

/-- Client-side `error` discriminant. -/
inductive ClientError where
  | bungieApiOffline
  | network
  | server
  | client
deriving DecidableEq

/-- The client `data` payload: membership-only (`NextBungieAuthSaleSessionData`)
or the full authorized payload. -/
inductive ClientData where
  | sale (bungieMembershipId : JsString)
  | full (d : AuthorizedData)
deriving DecidableEq

/-- `BungieSessionState`: status plus the transient UI flags.  The source
builds these records with `as BungieSessionState` casts, so the per-status
field constraints live in the derivation functions, not the type. -/
structure ClientSessionState where
  status : ClientStatus
  isPending : Bool
  isFetching : Bool
  isError : Bool
  data : Option ClientData
  error : Option ClientError
deriving DecidableEq

/-- `deriveErrorState` (`src/unnamed/part_003`, lines 903-921): on a
network/client/5xx-server failure, keep the previous status unless the
previous state was pending or `unavailable` (both regress to `unauthorized`);
always keep the previous data. -/
def deriveErrorState (previous : ClientSessionState) (error : ClientError) :
    ClientSessionState :=
  { status := if previous.isPending || previous.status == .unavailable
              then .unauthorized else previous.status
    isPending := false
    isFetching := false
    isError := true
    data := previous.data
    error := some error }

/-- `deriveLoadingState` (`src/unnamed/part_003`, lines 923-970). -/
def deriveLoadingState (previous : ClientSessionState) : ClientSessionState :=
  if previous.status == .authorized && previous.isError then
    { status := .unavailable, isPending := false, isFetching := false,
      isError := true, data := previous.data, error := previous.error }
  else
    match previous.status with
    | .pending =>
      { status := .pending, isPending := true, isFetching := true,
        isError := false, data := none, error := none }
    | .stale =>
      { status := .stale, isPending := true, isFetching := true,
        isError := previous.isError, data := previous.data, error := previous.error }
    | s =>
      { status := s, isPending := false, isFetching := true,
        isError := previous.isError, data := previous.data, error := previous.error }

/-- `deriveStateFromServer` (`src/unnamed/part_003`, lines 975-1034):
classify a server session response against the previous client state
(`none` = no previous state, the `prevSession: null` call from the
initializer). -/
def deriveStateFromServer (prevSession : Option ClientSessionState)
    (session : SessionResponse) : ClientSessionState :=
  match session with
  | .authorized d =>
    { status := .authorized, isPending := false, isFetching := false,
      isError := false, data := some (.full d), error := none }
  | .stale mid =>
    { status := .stale, isPending := true, isFetching := false,
      isError := false, data := some (.sale mid), error := none }
  | .unauthorized =>
    { status := .unauthorized, isPending := false, isFetching := false,
      isError := false, data := none, error := none }
  | .expired =>
    { status := .unauthorized, isPending := false, isFetching := false,
      isError := false, data := none, error := none }
  | .error =>
    { status := match prevSession with
                | none => .unauthorized
                | some p => if p.isPending then .unauthorized else p.status
      isPending := false
      isFetching := false
      isError := true
      data := match prevSession with
              | none => none
              | some p => if p.data.isNone || p.isPending then none else p.data
      error := some .server }
  | .disabled mid =>
    { status := .unavailable, isPending := false, isFetching := false,
      isError := true, data := some (.sale mid), error := some .bungieApiOffline }

/-- `new Date(session.data.accessTokenExpiresAt).getTime()` for the client
payload; only evaluated on the authorized branch, where the data carries the
full payload. -/
def clientAccessExpiryMs : Option ClientData → Int
  | some (.full d) => d.accessTokenExpiresAtMs
  | _ => 0

/-- `calculateMsToNextRefresh` (`src/unnamed/part_003`, lines 725-752):
`none` models the `false` return ("do not schedule a refresh").
`lastSuccessfulRefresh` is falsy exactly when it is 0 (its initial value). -/
def calculateMsToNextRefresh (nowMs lastSuccessfulRefresh refreshRateLimit timeBeforeRefresh : Int)
    (session : ClientSessionState) : Option Int :=
  let minWaitForRefresh : Int :=
    if lastSuccessfulRefresh ≠ 0 then
      max 0 (refreshRateLimit - max 0 (nowMs - lastSuccessfulRefresh))
    else 0
  match session.status with
  | .stale => some minWaitForRefresh
  | .authorized =>
    some (max (if session.isError then 60000 else minWaitForRefresh)
      (clientAccessExpiryMs session.data - timeBeforeRefresh - nowMs))
  | .unavailable => some (5 * 60000)
  | .pending => none
  | .unauthorized => none

/-- The provider component state relevant to the fetch concurrency guard:
the session state, the `isUpdatingSession` ref, and how many session/refresh
network requests have been issued. -/
structure ClientMachine where
  session : ClientSessionState
  isUpdatingSession : Bool
  networkCalls : Nat
deriving DecidableEq

/-- The synchronous prefix of `fetchAndUpdateSession` (`src/unnamed/part_003`,
lines 591-602), up to the point where the network request has been issued:
if a fetch is already in flight, return without touching anything; otherwise
set the in-flight flag, move the session to its loading state, and issue
exactly one `customFetch` call. -/
def fetchAndUpdateSession (m : ClientMachine) : ClientMachine :=
  if m.isUpdatingSession then m
  else
    { session := deriveLoadingState m.session
      isUpdatingSession := true
      networkCalls := m.networkCalls + 1 }

/-! ## Base64 round-trip lemmas -/

/-- Induction in the 3-byte chunks used by the base64 encoder. -/
theorem chunk3Induction (P : List Nat → Prop) (h0 : P []) (h1 : ∀ a, P [a])
    (h2 : ∀ a b, P [a, b]) (h3 : ∀ a b c r, P r → P (a :: b :: c :: r)) :
    ∀ l, P l
  | [] => h0
  | [a] => h1 a
  | [a, b] => h2 a b
  | a :: b :: c :: r => h3 a b c r (chunk3Induction P h0 h1 h2 h3 r)

theorem b64chr_isB64Char (v : Nat) : isB64Char (b64chr v) = true := by
  simp only [b64chr, isB64Char]
  split <;> try split <;> try split <;> try split
  all_goals simp_all <;> omega

theorem b64chr_not_ws (v : Nat) : isB64Ws (b64chr v) = false := by
  simp only [b64chr, isB64Ws]
  split <;> try split <;> try split <;> try split
  all_goals simp_all <;> omega

theorem b64chr_ne_61 (v : Nat) : b64chr v ≠ 61 := by
  simp only [b64chr]
  split <;> try split <;> try split <;> try split
  all_goals omega

theorem b64val_b64chr : ∀ v < 64, b64val (b64chr v) = v := by decide

theorem encBytes_length_mod (l : List Nat) : (encBytes l).length % 4 = 0 := by
  induction l using chunk3Induction with
  | h0 => rfl
  | h1 a => simp [encBytes]
  | h2 a b => simp [encBytes]
  | h3 a b c r ih => simp [encBytes]; omega

theorem ws_61 : isB64Ws 61 = false := by decide

theorem encBytes_no_ws (l : List Nat) :
    (encBytes l).filter (fun c => !isB64Ws c) = encBytes l := by
  induction l using chunk3Induction with
  | h0 => rfl
  | h1 a => simp [encBytes, List.filter, b64chr_not_ws, ws_61]
  | h2 a b => simp [encBytes, List.filter, b64chr_not_ws, ws_61]
  | h3 a b c r ih => simp [encBytes, List.filter, b64chr_not_ws, ws_61, ih]

theorem stripPad_append4 (d1 d2 d3 d4 : Nat) (x : List Nat)
    (h4 : d4 ≠ 61) :
    stripPad (d1 :: d2 :: d3 :: d4 :: x) = d1 :: d2 :: d3 :: d4 :: stripPad x := by
  simp only [stripPad]
  match hx : x.reverse with
  | [] =>
    have : x = [] := by simpa using congrArg List.reverse hx
    subst this
    simp [h4]
  | [y] =>
    have : x = [y] := by simpa using congrArg List.reverse hx
    subst this
    by_cases hy : y = 61 <;> simp [hy, h4]
  | y1 :: y2 :: ys =>
    have hx2 : x = (y1 :: y2 :: ys).reverse := by
      simpa using congrArg List.reverse hx
    subst hx2
    simp only [List.reverse_append, List.reverse_cons, List.reverse_reverse,
      List.append_assoc, List.cons_append, List.nil_append]
    by_cases h1 : y1 = 61 <;> by_cases h2 : y2 = 61 <;>
      simp [h1, h2, List.reverse_append]

theorem stripPad_encBytes (l : List Nat) : stripPad (encBytes l) = encNoPad l := by
  induction l using chunk3Induction with
  | h0 => rfl
  | h1 a => simp [encBytes, encNoPad, stripPad]
  | h2 a b =>
    simp only [encBytes, encNoPad, stripPad, List.reverse_cons, List.reverse_nil,
      List.nil_append, List.cons_append]
    simp [b64chr_ne_61 (b % 16 * 4)]
  | h3 a b c r ih =>
    simp only [encBytes, encNoPad]
    rw [stripPad_append4 _ _ _ _ _ (b64chr_ne_61 (c % 64)), ih]

theorem encNoPad_all_b64 (l : List Nat) : (encNoPad l).all isB64Char = true := by
  induction l using chunk3Induction with
  | h0 => rfl
  | h1 a => simp [encNoPad, b64chr_isB64Char]
  | h2 a b => simp [encNoPad, b64chr_isB64Char]
  | h3 a b c r ih => simp [encNoPad, b64chr_isB64Char, ih]

theorem encNoPad_length_mod (l : List Nat) : (encNoPad l).length % 4 ≠ 1 := by
  induction l using chunk3Induction with
  | h0 => simp [encNoPad]
  | h1 a => simp [encNoPad]
  | h2 a b => simp [encNoPad]
  | h3 a b c r ih => simp only [encNoPad, List.length_cons]; omega

theorem decChars_encNoPad (l : List Nat) (h : ∀ x ∈ l, x ≤ 255) :
    decChars (encNoPad l) = l := by
  induction l using chunk3Induction with
  | h0 => rfl
  | h1 a =>
    have ha : a ≤ 255 := h a (by simp)
    simp only [encNoPad, decChars]
    rw [b64val_b64chr (a / 4) (by omega), b64val_b64chr (a % 4 * 16) (by omega)]
    congr 1
    omega
  | h2 a b =>
    have ha : a ≤ 255 := h a (by simp)
    have hb : b ≤ 255 := h b (by simp)
    simp only [encNoPad, decChars]
    rw [b64val_b64chr (a / 4) (by omega), b64val_b64chr (a % 4 * 16 + b / 16) (by omega),
      b64val_b64chr (b % 16 * 4) (by omega)]
    congr 1
    · omega
    · congr 1
      omega
  | h3 a b c r ih =>
    have ha : a ≤ 255 := h a (by simp)
    have hb : b ≤ 255 := h b (by simp)
    have hc : c ≤ 255 := h c (by simp)
    simp only [encNoPad, decChars]
    rw [b64val_b64chr (a / 4) (by omega), b64val_b64chr (a % 4 * 16 + b / 16) (by omega),
      b64val_b64chr (b % 16 * 4 + c / 64) (by omega), b64val_b64chr (c % 64) (by omega)]
    rw [ih (fun x hx => h x (by simp [hx]))]
    congr 1
    · omega
    · congr 1
      · omega
      · congr 1
        omega

/-- `atob` inverts `btoa` on every byte string `btoa` accepts. -/
theorem atob_btoa (l e : List Nat) (h : btoa l = some e) : atob e = some l := by
  simp only [btoa] at h
  by_cases hall : l.all (fun c => c ≤ 255) = true
  · rw [if_pos hall] at h
    obtain rfl : encBytes l = e := by injection h
    have hbound : ∀ x ∈ l, x ≤ 255 := by
      intro x hx
      exact of_decide_eq_true (List.all_eq_true.mp hall x hx)
    simp only [atob, encBytes_no_ws, encBytes_length_mod, beq_self_eq_true, if_true,
      stripPad_encBytes, Nat.zero_mod]
    rw [if_neg (by simpa using encNoPad_length_mod l), if_pos (encNoPad_all_b64 l),
      decChars_encNoPad l hbound]
  · rw [if_neg hall] at h
    exact absurd h (by simp)

/-! ## Keystream lemmas -/

theorem toUint16_lt (x : Int) : toUint16 x < 65536 := by
  simp only [toUint16]
  omega

theorem deobf_obf (secret : JsString) (k : Nat) (l : JsString)
    (h : ∀ c ∈ l, c < 65536) :
    deobfChars secret k (obfChars secret k l) = l := by
  induction l generalizing k with
  | nil => rfl
  | cons c cs ih =>
    have hc : c < 65536 := h c (by simp)
    simp only [obfChars, deobfChars, List.cons.injEq]
    refine ⟨?_, ih (k + 1) (fun x hx => h x (by simp [hx]))⟩
    simp only [toUint16]
    omega

theorem obfChars_length (secret : JsString) (k : Nat) (l : JsString) :
    (obfChars secret k l).length = l.length := by
  induction l generalizing k with
  | nil => rfl
  | cons c cs ih => simp [obfChars, ih]

/-- The `all (· ≤ 255)` guard of `btoa` over the keystream output, expressed
positionally. -/
theorem obfChars_all_le_iff (secret : JsString) (k : Nat) (l : JsString) :
    (obfChars secret k l).all (fun c => c ≤ 255) = true ↔
      ∀ i < l.length, toUint16 ((l.getD i 0 : Int) + (secretCode secret (k + i) : Int)) ≤ 255 := by
  induction l generalizing k with
  | nil => simp [obfChars]
  | cons c cs ih =>
    simp only [obfChars, List.all_cons, Bool.and_eq_true, ih, decide_eq_true_eq]
    constructor
    · rintro ⟨h0, hrest⟩ i hi
      match i with
      | 0 => simpa using h0
      | j + 1 =>
        have := hrest j (by simpa using Nat.lt_of_succ_lt_succ hi)
        simpa [Nat.add_comm, Nat.add_assoc, Nat.add_left_comm] using this
    · intro hall
      refine ⟨by simpa using hall 0 (by simp), fun j hj => ?_⟩
      have := hall (j + 1) (by simpa using Nat.succ_lt_succ hj)
      simpa [Nat.add_comm, Nat.add_assoc, Nat.add_left_comm] using this

theorem encBytes_ne_nil (l : List Nat) (h : l ≠ []) : encBytes l ≠ [] := by
  match l with
  | [] => exact absurd rfl h
  | [a] => simp [encBytes]
  | [a, b] => simp [encBytes]
  | a :: b :: c :: r => simp [encBytes]

theorem obfChars_lt (secret : JsString) (k : Nat) (l : JsString) :
    ∀ c ∈ obfChars secret k l, c < 65536 := by
  induction l generalizing k with
  | nil => simp [obfChars]
  | cons c cs ih =>
    intro x hx
    simp only [obfChars, List.mem_cons] at hx
    rcases hx with rfl | hx
    · exact toUint16_lt _
    · exact ih (k + 1) x hx

theorem btoa_isSome_iff (s : List Nat) :
    (btoa s).isSome = true ↔ s.all (fun c => c ≤ 255) = true := by
  simp only [btoa]
  split <;> simp_all

/-- Propositional equality of `Except` values is decidable componentwise. -/
instance instDecEqExcept {e a : Type} [DecidableEq e] [DecidableEq a] :
    DecidableEq (Except e a) := fun x y =>
  match x, y with
  | .error u, .error v =>
    if h : u = v then isTrue (by rw [h]) else isFalse (fun hc => h (by injection hc))
  | .error _, .ok _ => isFalse (fun hc => Except.noConfusion hc)
  | .ok _, .error _ => isFalse (fun hc => Except.noConfusion hc)
  | .ok u, .ok v =>
    if h : u = v then isTrue (by rw [h]) else isFalse (fun hc => h (by injection hc))

/-! ## Claim theorems: the token codec -/

/-- A concrete configuration for witnesses: one-character secret `"a"` and the
default 300-second grace period. -/
def exampleConfig : NextBungieAuthConfig :=
  { clientSecret := [97], sessionRefreshGracePeriod := 300 }

/-- C2, counterexample.  The claim says decoding a malformed (non-base64)
string returns null; in the source, `atob` throws and `decodeToken` does not
catch, so decoding the one-character string `"!"` throws instead of
returning null. -/
theorem decodeToken_throws_on_malformed :
    decodeToken (some [33]) exampleConfig = .error () := by decide

/-- C2, amended.  `decodeToken` returns null exactly when the input is absent
or empty; a non-empty input throws precisely when it is not forgiving-base64;
and every well-formed base64 input yields the deobfuscated string, with no
structural validation of its content. -/
theorem decodeToken_null_iff_absent (config : NextBungieAuthConfig) :
    (∀ enc : Option JsString,
      decodeToken enc config = .ok none ↔ (enc = none ∨ enc = some []))
    ∧ (∀ s : JsString, decodeToken (some s) config = .error () ↔ (s ≠ [] ∧ atob s = none))
    ∧ (∀ s b : JsString, s ≠ [] → atob s = some b →
        decodeToken (some s) config = .ok (some (deobfChars config.clientSecret 0 b))) := by
  refine ⟨fun enc => ?_, fun s => ?_, fun s b hne hb => ?_⟩
  · match enc with
    | none => simp [decodeToken]
    | some [] => simp [decodeToken]
    | some (c :: cs) =>
      simp only [decodeToken, List.isEmpty_cons, Bool.false_eq_true, if_false]
      cases h : atob (c :: cs) <;> simp [h]
  · match s with
    | [] => simp [decodeToken]
    | c :: cs =>
      simp only [decodeToken, List.isEmpty_cons, Bool.false_eq_true, if_false]
      cases h : atob (c :: cs) <;> simp [h]
  · match s with
    | [] => exact absurd rfl hne
    | c :: cs => simp [decodeToken, hb]

/-- C5, counterexample.  The round trip fails at the empty token: encoding
`""` yields `""`, which `decodeToken` maps to null (its falsy-input branch),
not back to `""`. -/
theorem decode_encode_empty_mismatch :
    encodeToken [] exampleConfig = some []
    ∧ decodeToken (some []) exampleConfig = .ok none
    ∧ (Except.ok none : Except Unit (Option JsString)) ≠ .ok (some ([] : JsString)) := by
  refine ⟨rfl, rfl, by decide⟩

/-- C5, amended.  For every non-empty token string (of UTF-16 code units) and
non-empty secret, whenever `encodeToken` succeeds, decoding the encoding
returns exactly the original token: the keystream applied by `encodeToken`
is inverted by `decodeToken`. -/
theorem decode_encode_roundtrip (T e : JsString) (config : NextBungieAuthConfig)
    (hsecret : config.clientSecret ≠ [])
    (hT : ∀ c ∈ T, c < 65536) (hne : T ≠ [])
    (henc : encodeToken T config = some e) :
    decodeToken (some e) config = .ok (some T) := by
  have hobf : obfChars config.clientSecret 0 T ≠ [] := by
    intro hcon
    have := obfChars_length config.clientSecret 0 T
    rw [hcon] at this
    exact hne (List.eq_nil_of_length_eq_zero this.symm)
  have hatob : atob e = some (obfChars config.clientSecret 0 T) :=
    atob_btoa _ _ henc
  have hene : e ≠ [] := by
    simp only [encodeToken, btoa] at henc
    split at henc
    · obtain rfl : encBytes (obfChars config.clientSecret 0 T) = e := by injection henc
      exact encBytes_ne_nil _ hobf
    · exact absurd henc (by simp)
  simp only [decodeToken, List.isEmpty_eq_true, hene, if_false, hatob]
  rw [deobf_obf config.clientSecret 0 T hT]

/-- A configuration with a secret character outside the latin1 range, used to
exhibit the ToUint16 wrap-around of `String.fromCharCode`. -/
def wideConfig : NextBungieAuthConfig :=
  { clientSecret := [256], sessionRefreshGracePeriod := 300 }

/-- C10, counterexample.  The claim says encoding succeeds only when every
plaintext-plus-secret character-code sum is at most 255; but
`String.fromCharCode` wraps mod 2^16, so for plaintext code 65280 and secret
code 256 the sum 65536 wraps to 0 and `encodeToken` succeeds even though the
sum exceeds 255. -/
theorem encodeToken_wraps_beyond_255 :
    (encodeToken [65280] wideConfig).isSome = true
    ∧ ¬(65280 + secretCode wideConfig.clientSecret 0 ≤ 255) := by decide

/-- C10, amended.  For a non-empty secret, `encodeToken` succeeds if and only
if, at every position, the plaintext code plus the keystream code *reduced
mod 2^16* is at most 255; the plain sum bound (the claim's condition, which
all Bungie tokens and ASCII secrets satisfy) is sufficient. -/
theorem encodeToken_total_iff (T : JsString) (config : NextBungieAuthConfig)
    (hsecret : config.clientSecret ≠ []) :
    ((encodeToken T config).isSome = true ↔
      ∀ i < T.length,
        toUint16 ((T.getD i 0 : Int) + (secretCode config.clientSecret i : Int)) ≤ 255)
    ∧ ((∀ i < T.length, T.getD i 0 + secretCode config.clientSecret i ≤ 255) →
        (encodeToken T config).isSome = true) := by
  have hiff : (encodeToken T config).isSome = true ↔
      ∀ i < T.length,
        toUint16 ((T.getD i 0 : Int) + (secretCode config.clientSecret i : Int)) ≤ 255 := by
    rw [encodeToken, btoa_isSome_iff, obfChars_all_le_iff]
    simp
  refine ⟨hiff, fun hsum => hiff.mpr fun i hi => ?_⟩
  have := hsum i hi
  simp only [toUint16]
  omega

/-- C5 witness: the round trip evaluated at the one-character token `"b"`
(code 98) under the secret `"a"`; its encoding is `"ww=="`. -/
theorem decode_encode_roundtrip_witness :
    decodeToken (some [119, 119, 61, 61]) exampleConfig = .ok (some [98]) :=
  decode_encode_roundtrip [98] [119, 119, 61, 61] exampleConfig (by decide) (by decide)
    (by decide) (by decide)

/-- C10 witness: the totality characterization evaluated at the token `"b"`
under the secret `"a"`. -/
theorem encodeToken_total_iff_witness :
    ((encodeToken [98] exampleConfig).isSome = true ↔
      ∀ i < ([98] : JsString).length,
        toUint16 ((([98] : JsString).getD i 0 : Int)
          + (secretCode exampleConfig.clientSecret i : Int)) ≤ 255)
    ∧ ((∀ i < ([98] : JsString).length,
          ([98] : JsString).getD i 0 + secretCode exampleConfig.clientSecret i ≤ 255) →
        (encodeToken [98] exampleConfig).isSome = true) :=
  encodeToken_total_iff [98] exampleConfig (by decide)

/-! ## Claim theorems: the session derivation engine -/

theorem attemptRefresh_networkCalls (env : JsEnv) (provider : ProviderOutcome)
    (jar : SessionCookies) (config : NextBungieAuthConfig) (mid : JsString) :
    (attemptRefresh env provider jar config mid).2.2 = 1 := by
  cases provider with
  | success tokens =>
    simp only [attemptRefresh]
    rcases h : setAllCookies env tokens
      (env.nowMs - env.nowMs % 1000 + tokens.expires_in * 1000) jar config with ⟨jar2, flag⟩
    cases flag <;> simp
  | authError e d =>
    by_cases h : d = systemDisabledCodes <;> simp [attemptRefresh, h]
  | failure => rfl

theorem refreshSession_slow_eq (env : JsEnv) (config : NextBungieAuthConfig)
    (force : Bool) (provider : ProviderOutcome) (jar : SessionCookies) (all : AllCookies)
    (hget : getAllCookies env jar config = .ok all)
    (hmid : truthy all.bungieMembershipId = true)
    (hrt : truthy all.refreshToken = true)
    (hslow : (!force && truthy all.accessToken
      && sessionStillValid all.accessExpires env.nowMs config.sessionRefreshGracePeriod)
        = false) :
    refreshSession env force provider jar config
      = .ok (attemptRefresh env provider jar config (all.bungieMembershipId.getD [])) := by
  simp [refreshSession, hget, hmid, hrt, hslow]

/-- A cookie jar holding membership id `"42"` and the refresh cookie `"AAAA"`
(valid base64) but no access cookie. -/
def staleJar : SessionCookies :=
  { membershipid := some [52, 50], access := none,
    refresh := some [65, 65, 65, 65], expires := none }

/-- An environment with `Date.now() = 0` in which every date string parses as
an Invalid Date. -/
def exampleEnv : JsEnv :=
  { nowMs := 0, parseDateMs := fun _ => none, isoStr := fun _ => [] }


/-- C3: when `refreshSession` reaches the provider exchange and it fails, the
four session cookies are cleared iff the failure is a structured
`BungieAuthorizationError` whose description is not the `SystemDisabled`
sentinel (status `expired`); on `SystemDisabled` the jar is unchanged and the
status is `disabled` carrying only the last-known membership id; on a
non-structured failure the jar is unchanged and the status is `error` with
null data. -/
theorem refreshSession_failure_cookie_policy (env : JsEnv) (config : NextBungieAuthConfig)
    (force : Bool) (jar : SessionCookies) (all : AllCookies) (mid : JsString)
    (hget : getAllCookies env jar config = .ok all)
    (hmid : all.bungieMembershipId = some mid)
    (hmidne : mid.isEmpty = false)
    (hrt : truthy all.refreshToken = true)
    (hslow : (!force && truthy all.accessToken
      && sessionStillValid all.accessExpires env.nowMs config.sessionRefreshGracePeriod)
        = false) :
    (∀ e d, d ≠ systemDisabledCodes →
      refreshSession env force (.authError e d) jar config
        = .ok (.expired, clearAllCookies jar, 1))
    ∧ (∀ e, refreshSession env force (.authError e systemDisabledCodes) jar config
        = .ok (.disabled mid, jar, 1))
    ∧ refreshSession env force .failure jar config = .ok (.error, jar, 1)
    ∧ clearAllCookies jar
        = { membershipid := none, access := none, refresh := none, expires := none } := by
  have htr : truthy all.bungieMembershipId = true := by
    rw [hmid]
    simp [truthy, hmidne]
  have hgd : all.bungieMembershipId.getD [] = mid := by rw [hmid]; rfl
  refine ⟨fun e d hd => ?_, fun e => ?_, ?_, rfl⟩
  · rw [refreshSession_slow_eq env config force _ jar all hget htr hrt hslow]
    simp [attemptRefresh, hd]
  · rw [refreshSession_slow_eq env config force _ jar all hget htr hrt hslow]
    simp [attemptRefresh, hgd]
  · rw [refreshSession_slow_eq env config force _ jar all hget htr hrt hslow]
    simp [attemptRefresh]

/-- C3 witness: the three failure outcomes evaluated on the concrete stale
jar: a rejected refresh token clears the cookies and reports `expired`, the
`SystemDisabled` sentinel preserves them and reports `disabled "42"`, and an
unstructured failure preserves them and reports `error`. -/
theorem refreshSession_failure_cookie_policy_witness :
    refreshSession exampleEnv false (.authError [] []) staleJar exampleConfig
      = .ok (.expired, clearAllCookies staleJar, 1)
    ∧ refreshSession exampleEnv false (.authError [] systemDisabledCodes) staleJar exampleConfig
      = .ok (.disabled [52, 50], staleJar, 1)
    ∧ refreshSession exampleEnv false .failure staleJar exampleConfig
      = .ok (.error, staleJar, 1) :=
  have h := refreshSession_failure_cookie_policy exampleEnv exampleConfig false staleJar
    { accessExpires := some 0, bungieMembershipId := some [52, 50],
      accessToken := none, refreshToken := some [65439, 65439, 65439] }
    [52, 50] (by decide) (by decide) (by decide) (by decide) (by decide)
  ⟨h.1 [] [] (by decide), h.2.1 [], h.2.2.1⟩

/-- C4: in a non-forced call with membership id, refresh token and access
token cookies all present and the recorded access expiry minus the current
time above the grace period, no provider call occurs, the cookie jar is
completely unchanged, and both `refreshSession` and `getSession` return
`authorized` carrying the membership id, the stored access token and its
recorded expiry. -/
theorem refreshSession_fast_path (env : JsEnv) (config : NextBungieAuthConfig)
    (jar : SessionCookies) (all : AllCookies) (mid atok : JsString) (t : Int)
    (hget : getAllCookies env jar config = .ok all)
    (hmid : all.bungieMembershipId = some mid) (hmidne : mid.isEmpty = false)
    (hrt : truthy all.refreshToken = true)
    (hat : all.accessToken = some atok) (hatne : atok.isEmpty = false)
    (hexp : all.accessExpires = some t)
    (hfresh : 1000 * t - env.nowMs > 1000 * config.sessionRefreshGracePeriod) :
    (∀ provider, refreshSession env false provider jar config
      = .ok (.authorized ⟨mid, atok, t⟩, jar, 0))
    ∧ getSession env jar config
      = .ok (.authorized ⟨mid, atok, t⟩) := by
  have htr : truthy all.bungieMembershipId = true := by
    rw [hmid]; simp [truthy, hmidne]
  have hta : truthy all.accessToken = true := by
    rw [hat]; simp [truthy, hatne]
  have hvalid : sessionStillValid all.accessExpires env.nowMs
      config.sessionRefreshGracePeriod = true := by
    rw [hexp]
    simp [sessionStillValid, hfresh]
  constructor
  · intro provider
    simp [refreshSession, hget, hrt, hmid, hat, hexp, truthy, hmidne, hatne,
      sessionStillValid, hfresh]
    simpa [truthy] using hrt
  · simp [getSession, hget, hrt, hmid, hat, hexp, truthy, hmidne, hatne,
      sessionStillValid, hfresh]
    simpa [truthy] using hrt

/-- A jar with all three credential cookies present; the `expires` cookie is a
date string the environment `fastEnv` parses to 1,000,000 ms. -/
def freshJar : SessionCookies :=
  { membershipid := some [52, 50], access := some [65, 65, 65, 65],
    refresh := some [65, 65, 65, 65], expires := some [88] }

/-- An environment at `Date.now() = 0` whose date parser reads every string
as the timestamp 1,000,000 ms. -/
def fastEnv : JsEnv :=
  { nowMs := 0, parseDateMs := fun _ => some 1000000, isoStr := fun _ => [] }

/-- C4 witness: the fast path evaluated on the fresh jar: status `authorized`
with the decoded stored access token, no provider call, jar unchanged. -/
theorem refreshSession_fast_path_witness :
    refreshSession fastEnv false .failure freshJar exampleConfig
      = .ok (.authorized ⟨[52, 50], [65439, 65439, 65439], 1000000⟩, freshJar, 0)
    ∧ getSession fastEnv freshJar exampleConfig
      = .ok (.authorized ⟨[52, 50], [65439, 65439, 65439], 1000000⟩) :=
  have h := refreshSession_fast_path fastEnv exampleConfig freshJar
    { accessExpires := some 1000000, bungieMembershipId := some [52, 50],
      accessToken := some [65439, 65439, 65439],
      refreshToken := some [65439, 65439, 65439] }
    [52, 50] [65439, 65439, 65439] 1000000
    (by decide) (by decide) (by decide) (by decide) (by decide) (by decide) (by decide)
    (by decide)
  ⟨h.1 .failure, h.2⟩

/-- An environment 100 seconds before the recorded access expiry: `Date.now()`
is 1,789,999,900,000 ms and the `expires` cookie parses to
1,790,000,000,000 ms, so the access token expires within the 300-second
grace period. -/
def withinGraceEnv : JsEnv :=
  { nowMs := 1789999900000
    parseDateMs := fun _ => some 1790000000000
    isoStr := fun _ => [] }

/-- C1: the claim is right and the code is wrong.  The fast-path guard
`accessExpires.getTime() - Date.now() / 1000 > config.sessionRefreshGracePeriod`
subtracts seconds from milliseconds and compares against seconds, so for any
realistic timestamp it is true even inside the grace period: with all
cookies present and the access token expiring 100 s from now (at most the
300 s grace period, stated here in consistent milliseconds), the non-forced
call still takes the fast path — zero provider invocations and the stored
token returned as authorized — although the claim, spec rule 4.4.3 and the
`sessionRefreshGracePeriod` field's own documentation require a
`refresh_token` exchange. -/
theorem refreshSession_skips_within_grace_refresh :
    refreshSession withinGraceEnv false .failure freshJar exampleConfig
      = .ok (.authorized ⟨[52, 50], [65439, 65439, 65439], 1790000000000⟩, freshJar, 0)
    ∧ 1790000000000 - withinGraceEnv.nowMs ≤ 1000 * exampleConfig.sessionRefreshGracePeriod
    ∧ truthy freshJar.membershipid = true
    ∧ truthy freshJar.access = true
    ∧ truthy freshJar.refresh = true := by decide

/-- C6, amended: whenever the cookie read itself succeeds (every present
encoded cookie is well-formed base64) and the membership id or refresh token
cookie is absent, empty, or decodes to null, both `refreshSession` and
`getSession` return `unauthorized` with null data, with no provider call and
an unchanged jar, regardless of the force flag and the provider outcome. -/
theorem session_unauthorized_without_credentials (env : JsEnv)
    (config : NextBungieAuthConfig) (jar : SessionCookies) (all : AllCookies)
    (force : Bool) (provider : ProviderOutcome)
    (hget : getAllCookies env jar config = .ok all)
    (h : truthy all.bungieMembershipId = false ∨ truthy all.refreshToken = false) :
    refreshSession env force provider jar config = .ok (.unauthorized, jar, 0)
    ∧ getSession env jar config = .ok .unauthorized := by
  have hguard : (!truthy all.bungieMembershipId || !truthy all.refreshToken) = true := by
    rcases h with h | h <;> simp [h]
  constructor
  · simp [refreshSession, hget, hguard]
  · simp [getSession, hget, hguard]

/-- A jar with no membership id and no refresh token but a malformed
(non-base64) access cookie `"!"`. -/
def malformedAccessJar : SessionCookies :=
  { membershipid := none, access := some [33], refresh := none, expires := none }

/-- C6, counterexample.  The claim says a missing membership id / refresh
token yields `unauthorized` regardless of the values of all other cookies;
but with a malformed access cookie present, `getAllCookies` throws while
decoding it, so both functions throw instead of returning `unauthorized`. -/
theorem session_throws_on_malformed_access_cookie :
    malformedAccessJar.membershipid = none
    ∧ malformedAccessJar.refresh = none
    ∧ refreshSession exampleEnv false .failure malformedAccessJar exampleConfig = .error ()
    ∧ getSession exampleEnv malformedAccessJar exampleConfig = .error () := by decide

/-- C6 witness: a jar containing only a well-formed access cookie and no
membership id / refresh token is reported `unauthorized` by both functions. -/
theorem session_unauthorized_without_credentials_witness :
    refreshSession exampleEnv true .failure
      { membershipid := none, access := some [65, 65, 65, 65],
        refresh := none, expires := none } exampleConfig
      = .ok (.unauthorized,
        { membershipid := none, access := some [65, 65, 65, 65],
          refresh := none, expires := none }, 0)
    ∧ getSession exampleEnv
      { membershipid := none, access := some [65, 65, 65, 65],
        refresh := none, expires := none } exampleConfig
      = .ok .unauthorized :=
  session_unauthorized_without_credentials exampleEnv exampleConfig
    { membershipid := none, access := some [65, 65, 65, 65],
      refresh := none, expires := none }
    { accessExpires := some 0, bungieMembershipId := none,
      accessToken := some [65439, 65439, 65439], refreshToken := none }
    true .failure (by decide) (Or.inl (by decide))

/-! ## Claim theorems: the client state machine -/

/-- C7: the in-flight flag makes session fetches single-flight: while a fetch
is in flight, a further trigger (manual refresh, timer, connectivity signal —
they all call `fetchAndUpdateSession`) changes nothing and issues no network
call; two rapid triggers from an idle machine issue exactly one network
request. -/
theorem fetchAndUpdateSession_single_flight (m : ClientMachine) :
    (m.isUpdatingSession = true → fetchAndUpdateSession m = m)
    ∧ (m.isUpdatingSession = false →
        (fetchAndUpdateSession m).isUpdatingSession = true
        ∧ (fetchAndUpdateSession m).networkCalls = m.networkCalls + 1
        ∧ fetchAndUpdateSession (fetchAndUpdateSession m) = fetchAndUpdateSession m
        ∧ (fetchAndUpdateSession (fetchAndUpdateSession m)).networkCalls
            = m.networkCalls + 1) := by
  constructor
  · intro h
    simp [fetchAndUpdateSession, h]
  · intro h
    simp [fetchAndUpdateSession, h]

/-- The initial pending client session state. -/
def pendingState : ClientSessionState :=
  { status := .pending
    isPending := true
    isFetching := false
    isError := false
    data := none
    error := none }

/-- A concrete idle pending client machine. -/
def idleMachine : ClientMachine :=
  { session := pendingState
    isUpdatingSession := false
    networkCalls := 0 }

/-- C7 witness: the single-flight property evaluated on the idle pending
machine. -/
theorem fetchAndUpdateSession_single_flight_witness :
    (idleMachine.isUpdatingSession = true → fetchAndUpdateSession idleMachine = idleMachine)
    ∧ (idleMachine.isUpdatingSession = false →
        (fetchAndUpdateSession idleMachine).isUpdatingSession = true
        ∧ (fetchAndUpdateSession idleMachine).networkCalls = idleMachine.networkCalls + 1
        ∧ fetchAndUpdateSession (fetchAndUpdateSession idleMachine)
            = fetchAndUpdateSession idleMachine
        ∧ (fetchAndUpdateSession (fetchAndUpdateSession idleMachine)).networkCalls
            = idleMachine.networkCalls + 1) :=
  fetchAndUpdateSession_single_flight idleMachine

/-- An error-free authorized client state whose access token expires at
100,000 ms. -/
def authorizedAt100000 : ClientSessionState :=
  { status := .authorized, isPending := false, isFetching := false,
    isError := false, data := some (.full ⟨[52, 50], [97], 100000⟩), error := none }

/-- C8, counterexample.  The claim says the authorized refresh delay is
floored at 1 ms; but with no recorded successful refresh the floor is the
rate-limit wait 0, so an already-due expiry yields a scheduled delay of 0 ms,
below the claimed 1 ms minimum. -/
theorem calculateMsToNextRefresh_returns_zero :
    calculateMsToNextRefresh 100000 0 15000 30000 authorizedAt100000 = some 0
    ∧ (0 : Int) < 1 := by decide

/-- C8, amended: for `authorized` the delay is the maximum of a floor (60 s
when the state is error-flagged, otherwise the remaining rate-limit wait,
which is 0 before any successful refresh) and
`accessTokenExpiresAt - timeBeforeRefresh - now`; it is never negative but
can be 0 ms.  For `unavailable` it is a fixed 5 minutes; for `pending` and
`unauthorized` no refresh is scheduled.  In particular, with expiry
`now + 40000` ms and `timeBeforeRefresh = 30000` ms and no prior refresh the
delay is exactly 10000 ms. -/
theorem calculateMsToNextRefresh_policy
    (nowMs lastRefresh rateLimit tbr : Int) (s : ClientSessionState) :
    (s.status = .authorized → s.isError = true →
      calculateMsToNextRefresh nowMs lastRefresh rateLimit tbr s
        = some (max 60000 (clientAccessExpiryMs s.data - tbr - nowMs)))
    ∧ (s.status = .authorized → s.isError = false → lastRefresh ≠ 0 →
      calculateMsToNextRefresh nowMs lastRefresh rateLimit tbr s
        = some (max (max 0 (rateLimit - max 0 (nowMs - lastRefresh)))
            (clientAccessExpiryMs s.data - tbr - nowMs)))
    ∧ (s.status = .authorized → s.isError = false → lastRefresh = 0 →
      calculateMsToNextRefresh nowMs lastRefresh rateLimit tbr s
        = some (max 0 (clientAccessExpiryMs s.data - tbr - nowMs)))
    ∧ (s.status = .unavailable →
      calculateMsToNextRefresh nowMs lastRefresh rateLimit tbr s = some 300000)
    ∧ ((s.status = .pending ∨ s.status = .unauthorized) →
      calculateMsToNextRefresh nowMs lastRefresh rateLimit tbr s = none)
    ∧ (∀ r, calculateMsToNextRefresh nowMs lastRefresh rateLimit tbr s = some r → 0 ≤ r)
    ∧ (s.status = .authorized → s.isError = false → lastRefresh = 0 →
        clientAccessExpiryMs s.data = nowMs + 40000 → tbr = 30000 →
      calculateMsToNextRefresh nowMs lastRefresh rateLimit tbr s = some 10000) := by
  refine ⟨?_, ?_, ?_, ?_, ?_, ?_, ?_⟩
  · intro hs he
    simp [calculateMsToNextRefresh, hs, he]
  · intro hs he hl
    simp [calculateMsToNextRefresh, hs, he, hl]
  · intro hs he hl
    simp [calculateMsToNextRefresh, hs, he, hl]
  · intro hs
    simp [calculateMsToNextRefresh, hs]
  · rintro (hs | hs) <;> simp [calculateMsToNextRefresh, hs]
  · intro r hr
    have hmin : (0 : Int) ≤
        (if lastRefresh ≠ 0 then max 0 (rateLimit - max 0 (nowMs - lastRefresh)) else 0) := by
      split
      · exact le_max_left 0 _
      · exact le_refl 0
    have hfloor : (0 : Int) ≤
        (if s.isError = true then 60000
         else if lastRefresh ≠ 0 then max 0 (rateLimit - max 0 (nowMs - lastRefresh)) else 0) := by
      split
      · norm_num
      · exact hmin
    rcases hstat : s.status
    · simp only [calculateMsToNextRefresh, hstat] at hr
      exact absurd hr (by simp)
    · simp only [calculateMsToNextRefresh, hstat, Option.some.injEq] at hr
      subst hr
      exact le_trans hfloor (le_max_left _ _)
    · simp only [calculateMsToNextRefresh, hstat] at hr
      exact absurd hr (by simp)
    · simp only [calculateMsToNextRefresh, hstat, Option.some.injEq] at hr
      subst hr
      norm_num
    · simp only [calculateMsToNextRefresh, hstat, Option.some.injEq] at hr
      subst hr
      exact hmin
  · intro hs he hl hexp htbr
    have h10 : clientAccessExpiryMs s.data - tbr - nowMs = 10000 := by
      rw [hexp, htbr]; ring
    simp only [calculateMsToNextRefresh, hs, he, hl, h10]
    norm_num

/-- C8 witness: the policy evaluated at `now = 60000`, no prior refresh,
rate limit 15000, `timeBeforeRefresh = 30000`, on the error-free authorized
state expiring at 100,000 ms (= now + 40000). -/
theorem calculateMsToNextRefresh_policy_witness :
    (authorizedAt100000.status = .authorized → authorizedAt100000.isError = true →
      calculateMsToNextRefresh 60000 0 15000 30000 authorizedAt100000
        = some (max 60000 (clientAccessExpiryMs authorizedAt100000.data - 30000 - 60000)))
    ∧ (authorizedAt100000.status = .authorized → authorizedAt100000.isError = false →
        (0 : Int) ≠ 0 →
      calculateMsToNextRefresh 60000 0 15000 30000 authorizedAt100000
        = some (max (max 0 (15000 - max 0 (60000 - 0)))
            (clientAccessExpiryMs authorizedAt100000.data - 30000 - 60000)))
    ∧ (authorizedAt100000.status = .authorized → authorizedAt100000.isError = false →
        (0 : Int) = 0 →
      calculateMsToNextRefresh 60000 0 15000 30000 authorizedAt100000
        = some (max 0 (clientAccessExpiryMs authorizedAt100000.data - 30000 - 60000)))
    ∧ (authorizedAt100000.status = .unavailable →
      calculateMsToNextRefresh 60000 0 15000 30000 authorizedAt100000 = some 300000)
    ∧ ((authorizedAt100000.status = .pending ∨ authorizedAt100000.status = .unauthorized) →
      calculateMsToNextRefresh 60000 0 15000 30000 authorizedAt100000 = none)
    ∧ (∀ r, calculateMsToNextRefresh 60000 0 15000 30000 authorizedAt100000 = some r →
        0 ≤ r)
    ∧ (authorizedAt100000.status = .authorized → authorizedAt100000.isError = false →
        (0 : Int) = 0 →
        clientAccessExpiryMs authorizedAt100000.data = 60000 + 40000 → (30000 : Int) = 30000 →
      calculateMsToNextRefresh 60000 0 15000 30000 authorizedAt100000 = some 10000) :=
  calculateMsToNextRefresh_policy 60000 0 15000 30000 authorizedAt100000

/-- The unavailable (provider outage) client state with membership-only data. -/
def unavailableState : ClientSessionState :=
  { status := .unavailable
    isPending := false
    isFetching := false
    isError := true
    data := some (.sale [52, 50])
    error := some .bungieApiOffline }

/-- C9, counterexample.  The claim says a non-pending previous status is kept
by an error transition; but `deriveErrorState` also regresses a non-pending
`unavailable` state to `unauthorized`. -/
theorem deriveErrorState_regresses_unavailable :
    unavailableState.isPending = false
    ∧ unavailableState.status = .unavailable
    ∧ (deriveErrorState unavailableState .network).status = .unauthorized
    ∧ (deriveErrorState unavailableState .network).status ≠ unavailableState.status := by
  decide

/-- C9, amended: an error transition never discards the last-known data —
`deriveErrorState` always carries the previous `data` over, and the
server-reported-`error` transition carries it over whenever the previous
state was not pending; the previous status is kept by `deriveErrorState`
when it was neither pending nor `unavailable` (an `unavailable` previous
state is regressed to `unauthorized`), and by the server-`error` transition
whenever it was not pending. -/
theorem error_transition_preserves_state (prev : ClientSessionState) (e : ClientError) :
    (deriveErrorState prev e).data = prev.data
    ∧ (prev.isPending = false → prev.status ≠ .unavailable →
        ((deriveErrorState prev e).status = prev.status
         ∧ (deriveErrorState prev e).isError = true
         ∧ (deriveErrorState prev e).error = some e))
    ∧ (prev.isPending = false →
        ((deriveStateFromServer (some prev) .error).status = prev.status
         ∧ (deriveStateFromServer (some prev) .error).data = prev.data
         ∧ (deriveStateFromServer (some prev) .error).isError = true)) := by
  refine ⟨rfl, fun hp hs => ?_, fun hp => ?_⟩
  · have hbeq : (prev.status == ClientStatus.unavailable) = false := by
      simpa using hs
    simp [deriveErrorState, hp, hbeq]
  · refine ⟨by simp [deriveStateFromServer, hp], ?_, rfl⟩
    cases hd : prev.data <;> simp [deriveStateFromServer, hp, hd]

/-- C9 witness: the amended preservation property evaluated on the error-free
authorized state and a network failure. -/
theorem error_transition_preserves_state_witness :
    (deriveErrorState authorizedAt100000 .network).data = authorizedAt100000.data
    ∧ (authorizedAt100000.isPending = false → authorizedAt100000.status ≠ .unavailable →
        ((deriveErrorState authorizedAt100000 .network).status = authorizedAt100000.status
         ∧ (deriveErrorState authorizedAt100000 .network).isError = true
         ∧ (deriveErrorState authorizedAt100000 .network).error = some .network))
    ∧ (authorizedAt100000.isPending = false →
        ((deriveStateFromServer (some authorizedAt100000) .error).status
            = authorizedAt100000.status
         ∧ (deriveStateFromServer (some authorizedAt100000) .error).data
            = authorizedAt100000.data
         ∧ (deriveStateFromServer (some authorizedAt100000) .error).isError = true)) :=
  error_transition_preserves_state authorizedAt100000 .network

/-- C2 witness: the amended decode characterization evaluated at the concrete
configuration with secret `"a"`. -/
theorem decodeToken_null_iff_absent_witness :
    (∀ enc : Option JsString,
      decodeToken enc exampleConfig = .ok none ↔ (enc = none ∨ enc = some []))
    ∧ (∀ s : JsString,
        decodeToken (some s) exampleConfig = .error () ↔ (s ≠ [] ∧ atob s = none))
    ∧ (∀ s b : JsString, s ≠ [] → atob s = some b →
        decodeToken (some s) exampleConfig
          = .ok (some (deobfChars exampleConfig.clientSecret 0 b))) :=
  decodeToken_null_iff_absent exampleConfig
